import Mathlib

/-!
Shallow embedding of the multisend batch-transaction orchestrator of the
`deployer` dApp (source: `src/client/src/components/multisender.tsx` and
`src/client/src/lib/web3.ts`), together with theorems settling the frozen
claims about it.

Conventions of the embedding:
* JavaScript strings become Lean `String`s.
* `parseFloat` is modelled by `jsParseFloat` over plain decimal literals
  (optional sign, digits, optional fractional part, trailing garbage
  ignored, `NaN` becomes `none`); exponent notation is not modelled, and no
  claim depends on it.
* Stateful/async code becomes pure functions returning an event trace
  (`Event`, `W3Event`) paired with an `Except` outcome; the ambient wallet,
  network and backend are an explicit environment record whose fields are
  oracles for the external calls the code makes.
-/

namespace Deployer

/-- A recipient row as held by the multisender component:
`interface Recipient { address: string; amount: string }`. -/
structure Recipient where
  address : String
  amount : String
deriving Repr, DecidableEq

/-! ### A model of JavaScript `parseFloat` (decimal forms)

A parsed number is kept as an exact decimal `m / 10^e` so that every
comparison the code performs stays kernel-computable; the sign of the
parsed value is the sign of `m`. -/

/-- An exact decimal number `m / 10^e`. -/
structure Dec where
  m : Int
  e : Nat
deriving Repr, DecidableEq

/-- The rational value of a `Dec`. -/
def Dec.val (d : Dec) : ℚ := (d.m : ℚ) / (10 : ℚ) ^ d.e

/-- Accumulate leading decimal digits: returns the value read so far, the
number of digits consumed, and the rest of the input. -/
def parseDigits (acc : Nat) (n : Nat) : List Char → Nat × Nat × List Char
  | [] => (acc, n, [])
  | c :: cs =>
    if c.isDigit then parseDigits (10 * acc + (c.toNat - 48)) (n + 1) cs
    else (acc, n, c :: cs)

/-- `parseFloat` on a list of characters: skip leading whitespace, optional
sign, integer digits, optional `.` and fraction digits; `none` models `NaN`
(no digits at all). Trailing garbage is ignored, as in JavaScript; exponent
notation is not modelled (no claim depends on it). -/
def jsParseFloatCore (cs : List Char) : Option Dec :=
  let cs := cs.dropWhile (fun c => c = ' ' || c = '\t' || c = '\n' || c = '\r')
  let signAndRest : Int × List Char :=
    match cs with
    | '-' :: rest => (-1, rest)
    | '+' :: rest => (1, rest)
    | _ => (1, cs)
  let sign := signAndRest.1
  let ipart := parseDigits 0 0 signAndRest.2
  match ipart.2.2 with
  | '.' :: rest =>
    let fpart := parseDigits 0 0 rest
    if ipart.2.1 = 0 ∧ fpart.2.1 = 0 then none
    else some ⟨sign * (ipart.1 * 10 ^ fpart.2.1 + fpart.1 : Nat), fpart.2.1⟩
  | _ =>
    if ipart.2.1 = 0 then none else some ⟨sign * ipart.1, 0⟩

/-- `parseFloat` on a `String`. -/
def jsParseFloat (s : String) : Option Dec := jsParseFloatCore s.data

/-- The embedding of JavaScript `parseFloat(s) <= 0` on a parsed value:
`m / 10^e ≤ 0` iff `m ≤ 0`. -/
def Dec.nonpos (d : Dec) : Bool := d.m ≤ 0

/-! ### String primitives, as structurally recursive char-list functions
(Lean core's position-based `String` loops do not reduce in the kernel, so
the embedding re-implements the few JavaScript string operations it
needs). -/

/-- The whitespace characters `trim` removes. -/
def wsChar (c : Char) : Bool := c = ' ' || c = '\t' || c = '\n' || c = '\r'

/-- JavaScript `String.prototype.trim` on a char list. -/
def trimChars (cs : List Char) : List Char :=
  ((cs.dropWhile wsChar).reverse.dropWhile wsChar).reverse

/-- JavaScript `String.prototype.split(sep)` for a one-character separator:
always returns at least one (possibly empty) piece. -/
def splitChar (sep : Char) : List Char → List (List Char)
  | [] => [[]]
  | c :: cs =>
    let r := splitChar sep cs
    if c = sep then [] :: r
    else
      match r with
      | h :: t => (c :: h) :: t
      | [] => [[c]]

/-- JavaScript `startsWith("0x")`. -/
def startsWith0x : List Char → Bool
  | '0' :: 'x' :: _ => true
  | _ => false

/-- ASCII lowercasing of one character (what `toLowerCase` does on the
`0-9a-fA-F` address alphabet). -/
def lowerChar (c : Char) : Char :=
  if 'A' ≤ c ∧ c ≤ 'Z' then Char.ofNat (c.toNat + 32) else c

/-- JavaScript `toLowerCase` on a char list. -/
def lowerChars (cs : List Char) : List Char := cs.map lowerChar

/-! ### AddressBook: `addRecipient` (multisender.tsx lines 161–204) -/

/-- The distinct validation failures of `addRecipient`, one per toast. -/
inductive AddError where
  | missingInfo
  | invalidAddress
  | invalidAmount
  | duplicateAddress
deriving Repr, DecidableEq

/-- `addRecipient` of `multisender.tsx`: rejects empty fields, then an
address that does not start with `"0x"` or whose length is not 42, then an
amount whose `parseFloat` is `NaN` or `≤ 0`, then a case-insensitive
duplicate; otherwise appends the new row at the end. Note the source checks
only the `0x` head and the length — it performs no hex-digit check. -/
def addRecipient (recipients : List Recipient) (newAddress newAmount : String) :
    Except AddError (List Recipient) :=
  if newAddress = "" ∨ newAmount = "" then .error .missingInfo
  else if ¬ (startsWith0x newAddress.data ∧ newAddress.length = 42) then
    .error .invalidAddress
  else
    match jsParseFloat newAmount with
    | none => .error .invalidAmount
    | some q =>
      if q.nonpos then .error .invalidAmount
      else if recipients.any
          (fun r => lowerChars r.address.data = lowerChars newAddress.data) then
        .error .duplicateAddress
      else .ok (recipients ++ [⟨newAddress, newAmount⟩])

/-- The component state after an `addRecipient` click: on a validation
error `setRecipients` is never called, so the list is unchanged. -/
def addRecipientState (recipients : List Recipient) (newAddress newAmount : String) :
    List Recipient :=
  match addRecipient recipients newAddress newAmount with
  | .ok l => l
  | .error _ => recipients

/-! ### AddressBook: bulk import (`handleCSVUpload`, lines 214–251) -/

/-- One line of the uploaded text, as treated by `handleCSVUpload`: split on
commas, trim the first two fields, require both non-empty, then accept iff
the address starts with `"0x"`, has length 42, and `parseFloat(amount)` is
not `NaN`. No positivity check and no duplicate check are performed. -/
def csvAccept (line : List Char) : Option Recipient :=
  match (splitChar ',' line).map trimChars with
  | address :: amount :: _ =>
    if address ≠ [] ∧ amount ≠ [] ∧ startsWith0x address ∧ address.length = 42 ∧
        (jsParseFloatCore amount).isSome then
      some ⟨String.mk address, String.mk amount⟩
    else none
  | _ => none

/-- The rows `handleCSVUpload` accepts from the file text: split on
newlines, drop lines that are blank after trimming, keep every line
`csvAccept` keeps. -/
def importedRows (text : String) : List Recipient :=
  ((splitChar '\n' text.data).filter (fun l => trimChars l ≠ [])).filterMap csvAccept

/-- `handleCSVUpload`'s effect on the recipient list: append the accepted
rows (when at least one line was accepted; otherwise the list is left as
is, which coincides with appending nothing). -/
def importFromText (recipients : List Recipient) (text : String) : List Recipient :=
  let newRecipients := importedRows text
  if newRecipients.length > 0 then recipients ++ newRecipients else recipients

/-- A hexadecimal digit, in either case. -/
def isHexChar (c : Char) : Bool :=
  c.isDigit || ('a' ≤ c && c ≤ 'f') || ('A' ≤ c && c ≤ 'F')

/-- The spec's well-formed-address predicate, stated from the spec's words
(42-character `0x`-prefixed hexadecimal string); used only to compare the
spec's claim with the source's weaker check. -/
def specHexAddress (s : String) : Bool :=
  startsWith0x s.data && s.length = 42 && (s.data.drop 2).all isHexChar

/-! ### BatchOrchestrator: `sendMutation` (multisender.tsx lines 46–130) and
`handleSendToMultiple` (lines 253–326)

The ambient wallet/backend world is an `Env` of oracles: `submit i` is the
outcome of the `i`-th call to the transaction submitter (`sendTransaction`
or `sendERC20Token`, whichever the token type selects), `createOk` /
`updateOk` say whether the `POST /api/multisend` and the final
`PUT /api/multisend/:id` succeed, and `confirmDialog` is the user's answer
to the `confirm(...)` summary. A run yields the ordered trace of external
effects (`Event`) plus its outcome. -/

/-- The token type selector of the component. -/
inductive TokenType where
  | native
  | erc20
deriving Repr, DecidableEq

/-- Outcome of one submitter call: a transaction hash, or a thrown error
(caught by the per-recipient `catch`). -/
inductive SubmitOutcome where
  | success (hash : String)
  | failure
deriving Repr, DecidableEq

/-- The multisend record statuses of the schema. -/
inductive Status where
  | pending
  | confirmed
  | partially_failed
  | failed
deriving Repr, DecidableEq

/-- Externally visible effects of a batch run, in order. -/
inductive Event where
  | recordCreated
  | submitted (index : Nat) (address : String)
  | delayed (ms : Nat)
  | recordUpdated (status : Status) (hashes : List String) (failedAddresses : List String)
deriving Repr, DecidableEq

/-- The ambient world of one batch run. -/
structure Env where
  ethereum : Bool
  accounts : List String
  chainId : String
  submit : Nat → SubmitOutcome
  createOk : Bool
  updateOk : Bool
  confirmDialog : Bool

/-- The submission loop (lines 80–102) over the remaining recipients,
`i` being the index of the next one and `n` the total count: on success
push the hash and, unless this was the last recipient, sleep 2000 ms; on a
thrown error push the recipient's address and continue with no delay.
Returns `(transactionHashes, failedTransactions, events)`. -/
def runLoopAux (submit : Nat → SubmitOutcome) (n : Nat) :
    List Recipient → Nat → List String × List String × List Event
  | [], _ => ([], [], [])
  | r :: rest, i =>
    match submit i with
    | .success h =>
      let tail := runLoopAux submit n rest (i + 1)
      (h :: tail.1, tail.2.1,
        Event.submitted i r.address ::
          ((if i < n - 1 then [Event.delayed 2000] else []) ++ tail.2.2))
    | .failure =>
      let tail := runLoopAux submit n rest (i + 1)
      (tail.1, r.address :: tail.2.1, Event.submitted i r.address :: tail.2.2)

/-- The whole submission loop of a batch. -/
def runLoop (recipients : List Recipient) (submit : Nat → SubmitOutcome) :
    List String × List String × List Event :=
  runLoopAux submit recipients.length recipients 0

/-- The working state after the first `k` loop iterations (the intermediate
point of the run just before recipient `k` is processed). -/
def loopState (recipients : List Recipient) (submit : Nat → SubmitOutcome) (k : Nat) :
    List String × List String × List Event :=
  runLoopAux submit recipients.length (recipients.take k) 0

/-- The terminal-status classification of lines 105–106. -/
def classify (numRecipients numFailed : Nat) : Status :=
  if numFailed = 0 then .confirmed
  else if numFailed = numRecipients then .failed
  else .partially_failed

/-- Every way a batch run can fail short of a completed outcome: the five
toast-and-return aborts of `handleSendToMultiple`, then the thrown errors
of `sendMutation`. -/
inductive FlowError where
  | noRecipients
  | tokenNotSelected
  | walletNotFound
  | walletNotConnectedPre
  | userDeclined
  | metamaskNotAvailable
  | walletNotConnected
  | wrongNetwork
  | createFailed
  | updateFailed
deriving Repr, DecidableEq

/-- Result of a batch run: the effect trace and either a completed
`(status, transactionHashes, failedTransactions)` outcome or the error
propagated to the caller. -/
structure RunResult where
  events : List Event
  result : Except FlowError (Status × List String × List String)
deriving Repr

/-- `sendMutation.mutationFn`: re-check wallet, account and chain; create
the pending record; run the loop; then either the final `PUT` with the
classified status (lines 104–113), or — when that `PUT` throws — the
best-effort catch `PUT` of lines 121–129, which marks the record `failed`
with the accumulated hashes but with `recipients.map(r => r.address)` (all
recipient addresses) as `failedAddresses`, and rethrows. -/
def sendMutation (env : Env) (recipients : List Recipient) : RunResult :=
  if ¬ env.ethereum then ⟨[], .error .metamaskNotAvailable⟩
  else if env.accounts = [] then ⟨[], .error .walletNotConnected⟩
  else if env.chainId ≠ "0x279f" then ⟨[], .error .wrongNetwork⟩
  else if ¬ env.createOk then ⟨[], .error .createFailed⟩
  else
    let out := runLoop recipients env.submit
    let finalStatus := classify recipients.length out.2.1.length
    if env.updateOk then
      ⟨Event.recordCreated :: out.2.2 ++
          [Event.recordUpdated finalStatus out.1 out.2.1],
        .ok (finalStatus, out.1, out.2.1)⟩
    else
      ⟨Event.recordCreated :: out.2.2 ++
          [Event.recordUpdated .failed out.1 (recipients.map Recipient.address)],
        .error .updateFailed⟩

/-- `handleSendToMultiple`: the four precondition aborts (empty list,
ERC-20 with no token address, no wallet object, no authorized account),
then the `confirm` dialog, then the mutation. -/
def handleSendToMultiple (env : Env) (recipients : List Recipient)
    (tokenType : TokenType) (tokenAddress : String) : RunResult :=
  if recipients.length = 0 then ⟨[], .error .noRecipients⟩
  else if tokenType = .erc20 ∧ tokenAddress = "" then ⟨[], .error .tokenNotSelected⟩
  else if ¬ env.ethereum then ⟨[], .error .walletNotFound⟩
  else if env.accounts = [] then ⟨[], .error .walletNotConnectedPre⟩
  else if ¬ env.confirmDialog then ⟨[], .error .userDeclined⟩
  else sendMutation env recipients

/-! ### TransactionSubmitter: `sendTransaction` and `sendERC20Token`
(`src/client/src/lib/web3.ts`)

Errors are kept as the exact message strings the source throws.
`web3.utils.isAddress` is an external library call and is an oracle of the
environment; `toWei(amount, 'ether')` is modelled on the parsed decimal as
`m * 10^(18-e)` (amounts with more than 18 fractional digits, where `toWei`
itself errors, are out of model; no claim depends on them). -/

/-- Does `needle` occur at the head of the second list? -/
def leadsWith : List Char → List Char → Bool
  | [], _ => true
  | _ :: _, [] => false
  | n :: ns, h :: hs => (n = h) && leadsWith ns hs

/-- Does `needle` occur anywhere in the haystack? (JavaScript
`String.prototype.includes`, which is case-sensitive.) -/
def hasSub (needle : List Char) : List Char → Bool
  | [] => leadsWith needle []
  | h :: hs => leadsWith needle (h :: hs) || hasSub needle hs

/-- `hay.includes(needle)` on strings. -/
def strHas (needle hay : String) : Bool := hasSub needle.data hay.data

/-- A thrown JavaScript error, as the `catch` blocks inspect it. -/
structure JsError where
  code : Option Int
  message : String
deriving Repr, DecidableEq

/-- The `catch` of `sendTransaction` (web3.ts lines 99–111): translate the
inner error to the message rethrown to the caller. -/
def rewrapNative (e : JsError) : String :=
  if e.code = some 4001 then "Transaction was rejected by user"
  else if e.code = some (-32603) then "Transaction failed - insufficient funds or gas"
  else if strHas "insufficient funds" e.message then "Insufficient funds for transaction"
  else "Transaction failed: " ++ e.message

/-- The `catch` of `sendERC20Token` (web3.ts lines 180–192). Note both
`includes` probes are case-sensitive, so the thrown
`"Insufficient token balance"` (capital I) matches neither and falls
through to the generic rewrap. -/
def rewrapERC20 (e : JsError) : String :=
  if e.code = some 4001 then "Transaction was rejected by user"
  else if strHas "insufficient" e.message then "Insufficient token balance or gas"
  else if strHas "transfer amount exceeds balance" e.message then "Insufficient token balance"
  else "Token transfer failed: " ++ e.message

/-- External calls a submitter can make, in order. -/
inductive W3Event where
  | balanceQuery (owner : String)
  | estimateGas
  | signSend (dest : String) (wei : Int)
deriving Repr, DecidableEq

/-- The ambient world of one submitter call. -/
structure Web3Env where
  ethereum : Bool
  accounts : List String
  isAddress : String → Bool
  tokenBalanceWei : Int
  gasResult : Except JsError Nat
  txResult : Except JsError String

/-- `toWei(amount, 'ether')` on a parsed decimal. -/
def toWeiInt (d : Dec) : Int := d.m * 10 ^ (18 - d.e)

/-- `sendTransaction` of web3.ts: wallet and account guards, then the
recipient-address and amount validations of lines 72–81, and only then the
`try` block that estimates gas and asks the wallet to sign and broadcast. -/
def sendTransaction (env : Web3Env) (toAddr value : String) :
    List W3Event × Except String String :=
  if ¬ env.ethereum then ([], .error "MetaMask not available")
  else if env.accounts = [] then ([], .error "No wallet connected")
  else if ¬ env.isAddress toAddr then ([], .error ("Invalid recipient address: " ++ toAddr))
  else
    match jsParseFloat value with
    | none => ([], .error ("Invalid amount: " ++ value))
    | some q =>
      if q.nonpos then ([], .error ("Invalid amount: " ++ value))
      else
        match env.gasResult with
        | .error e => ([.estimateGas], .error (rewrapNative e))
        | .ok _ =>
          match env.txResult with
          | .ok h => ([.estimateGas, .signSend toAddr (toWeiInt q)], .ok h)
          | .error e => ([.estimateGas, .signSend toAddr (toWeiInt q)], .error (rewrapNative e))

/-- `sendERC20Token` of web3.ts: wallet and account guards, the token- and
recipient-address and amount validations of lines 131–143, then the `try`
block: query `balanceOf(accounts[0])`, throw
`"Insufficient token balance"` when the balance is strictly below the
requested amount in wei (line 171, `toBN(balance).lt(toBN(amountInWei))`),
otherwise call `transfer(to, amountInWei).send`. -/
def sendERC20Token (env : Web3Env) (tokenAddress toAddr amount : String) :
    List W3Event × Except String String :=
  if ¬ env.ethereum then ([], .error "MetaMask not available")
  else if env.accounts = [] then ([], .error "No wallet connected")
  else if ¬ env.isAddress tokenAddress then
    ([], .error ("Invalid token address: " ++ tokenAddress))
  else if ¬ env.isAddress toAddr then ([], .error ("Invalid recipient address: " ++ toAddr))
  else
    match jsParseFloat amount with
    | none => ([], .error ("Invalid amount: " ++ amount))
    | some q =>
      if q.nonpos then ([], .error ("Invalid amount: " ++ amount))
      else
        let owner := env.accounts.headD ""
        let wei := toWeiInt q
        if env.tokenBalanceWei < wei then
          ([.balanceQuery owner], .error (rewrapERC20 ⟨none, "Insufficient token balance"⟩))
        else
          match env.txResult with
          | .ok h => ([.balanceQuery owner, .signSend toAddr wei], .ok h)
          | .error e => ([.balanceQuery owner, .signSend toAddr wei], .error (rewrapERC20 e))

/-! ### Derived notions used by the theorems -/

/-- Does the loop sleep right after submission `i` (out of `n`)? It does
precisely when that submission succeeded and `i` is not the last index: the
`setTimeout` sits inside the success path of the per-recipient `try`, so a
thrown submission skips it. -/
def delayAfter (submit : Nat → SubmitOutcome) (n i : Nat) : Bool :=
  match submit i with
  | .success _ => decide (i < n - 1)
  | .failure => false

/-- The errors a batch run can abort with before a record is created: the
four toast aborts of `handleSendToMultiple` plus the three thrown guards of
`sendMutation` (the user declining the summary dialog is a plain
cancellation, not a precondition violation). -/
def isPrecondError : FlowError → Bool
  | .noRecipients => true
  | .tokenNotSelected => true
  | .walletNotFound => true
  | .walletNotConnectedPre => true
  | .metamaskNotAvailable => true
  | .walletNotConnected => true
  | .wrongNetwork => true
  | _ => false

/-- The spec's bulk-import example: one valid row, one malformed address,
one row with amount `-3`. -/
def exampleCSV : String :=
  "0x1111111111111111111111111111111111111111,1.5\nnotanaddress,2\n0x2222222222222222222222222222222222222222,-3"

/-- A 42-character `0x`-prefixed address that is not hexadecimal. -/
def zAddr : String := "0xzzzzzzzzzzzzzzzzzzzzzzzzzzzzzzzzzzzzzzzz"

/-- Two well-formed recipient addresses used by concrete runs. -/
def addrA : String := "0xaaaaaaaaaaaaaaaaaaaaaaaaaaaaaaaaaaaaaaaa"

def addrB : String := "0xbbbbbbbbbbbbbbbbbbbbbbbbbbbbbbbbbbbbbbbb"

/-- A healthy world for a concrete batch run: wallet present, one account,
right chain, the backend up, the user confirming, every submission
succeeding. -/
def envOk : Env :=
  { ethereum := true
    accounts := ["0xcccccccccccccccccccccccccccccccccccccccc"]
    chainId := "0x279f"
    submit := fun i => .success (String.mk ('0' :: 'x' :: Nat.toDigits 10 i))
    createOk := true
    updateOk := true
    confirmDialog := true }

/-- Like `envOk` but the final record update throws, while the single
submission succeeds: the scenario of the catch block of lines 121–129. -/
def envCatch : Env :=
  { envOk with updateOk := false }

/-- Like `envOk` but the first submission fails and the second succeeds. -/
def envMixed : Env :=
  { envOk with submit := fun i => if i = 0 then .failure else .success "0xh1" }

/-- A healthy submitter world: wallet present, one account, every string
accepted as an address, a zero token balance, gas estimation and broadcast
succeeding. -/
def w3envOk : Web3Env :=
  { ethereum := true
    accounts := ["0xcccccccccccccccccccccccccccccccccccccccc"]
    isAddress := fun _ => true
    tokenBalanceWei := 0
    gasResult := .ok 21000
    txResult := .ok "0xdeadbeef" }

/-- Like `w3envOk` but no string is accepted as an address. -/
def w3envBadAddr : Web3Env :=
  { w3envOk with isAddress := fun _ => false }

/-! ## Theorems -/

/-- Each loop iteration pushes to exactly one of `transactionHashes` and
`failedTransactions`, so over any run of the loop the two lengths add up to
the number of recipients processed. -/
theorem runLoopAux_partition (submit : Nat → SubmitOutcome) (n : Nat)
    (l : List Recipient) : ∀ i : Nat,
    (runLoopAux submit n l i).1.length + (runLoopAux submit n l i).2.1.length = l.length := by
  induction l with
  | nil => intro i; simp [runLoopAux]
  | cons r rest ih =>
    intro i
    cases h : submit i with
    | success hash =>
      simp only [runLoopAux, h, List.length_cons]
      have := ih (i + 1)
      omega
    | failure =>
      simp only [runLoopAux, h, List.length_cons]
      have := ih (i + 1)
      omega

/-- C1. For every batch run whose submission loop completes (the mutation
returns an outcome), each recipient contributed to exactly one of
`transactionHashes` and `failedAddresses`, so their lengths add up to the
number of recipients; and at every intermediate point of the loop (after
`k` iterations) the two accumulated lengths are at most that number. -/
theorem multisend_outcome_partition (env : Env) (recipients : List Recipient)
    (st : Status) (hs fs : List String)
    (hok : (sendMutation env recipients).result = .ok (st, hs, fs)) :
    hs.length + fs.length = recipients.length ∧
    ∀ k : Nat,
      (loopState recipients env.submit k).1.length +
        (loopState recipients env.submit k).2.1.length ≤ recipients.length := by
  constructor
  · unfold sendMutation at hok
    split at hok
    · simp at hok
    · split at hok
      · simp at hok
      · split at hok
        · simp at hok
        · split at hok
          · simp at hok
          · split at hok
            · simp at hok
              obtain ⟨-, h1, h2⟩ := hok
              rw [← h1, ← h2]
              exact runLoopAux_partition env.submit recipients.length recipients 0
            · simp at hok
  · intro k
    unfold loopState
    rw [runLoopAux_partition env.submit recipients.length (recipients.take k) 0]
    rw [List.length_take]
    omega

/-- Witness for `multisend_outcome_partition`: a two-recipient batch in the
healthy world, where both submissions succeed. -/
theorem multisend_outcome_partition_witness :
    (["0x0", "0x1"] : List String).length + ([] : List String).length =
      ([⟨addrA, "1"⟩, ⟨addrB, "2"⟩] : List Recipient).length ∧
    (loopState [⟨addrA, "1"⟩, ⟨addrB, "2"⟩] envOk.submit 1).1.length +
      (loopState [⟨addrA, "1"⟩, ⟨addrB, "2"⟩] envOk.submit 1).2.1.length ≤
        ([⟨addrA, "1"⟩, ⟨addrB, "2"⟩] : List Recipient).length :=
  ⟨(multisend_outcome_partition envOk [⟨addrA, "1"⟩, ⟨addrB, "2"⟩]
      .confirmed ["0x0", "0x1"] [] rfl).1,
   (multisend_outcome_partition envOk [⟨addrA, "1"⟩, ⟨addrB, "2"⟩]
      .confirmed ["0x0", "0x1"] [] rfl).2 1⟩

/-- The three-way classification of lines 105–106 as an iff, for a
non-empty batch (`k` failures out of `n` recipients). -/
theorem classify_characterization (n k : Nat) (hn : n ≠ 0) :
    (classify n k = .confirmed ↔ k = 0) ∧
    (classify n k = .failed ↔ k = n) ∧
    (classify n k = .partially_failed ↔ (k ≠ 0 ∧ k ≠ n)) := by
  unfold classify
  split_ifs with h1 h2
  · exact ⟨iff_of_true rfl h1, iff_of_false (by simp) (by omega),
      iff_of_false (by simp) (by simp [h1])⟩
  · exact ⟨iff_of_false (by simp) h1, iff_of_true rfl h2,
      iff_of_false (by simp) (by simp [h2])⟩
  · exact ⟨iff_of_false (by simp) h1, iff_of_false (by simp) h2,
      iff_of_true rfl ⟨h1, h2⟩⟩

/-- C2. After all recipients of a non-empty batch are processed, the
terminal status is `confirmed` iff no recipient failed, `failed` iff all
recipients failed, and `partially_failed` in every other case. -/
theorem multisend_terminal_status (recipients : List Recipient)
    (submit : Nat → SubmitOutcome) (hne : recipients ≠ []) :
    (classify recipients.length (runLoop recipients submit).2.1.length = .confirmed ↔
      (runLoop recipients submit).2.1 = []) ∧
    (classify recipients.length (runLoop recipients submit).2.1.length = .failed ↔
      (runLoop recipients submit).2.1.length = recipients.length) ∧
    (classify recipients.length (runLoop recipients submit).2.1.length = .partially_failed ↔
      ((runLoop recipients submit).2.1 ≠ [] ∧
        (runLoop recipients submit).2.1.length ≠ recipients.length)) := by
  have hn : recipients.length ≠ 0 := by
    intro h
    exact hne (List.length_eq_zero.mp h)
  have hc := classify_characterization recipients.length
    (runLoop recipients submit).2.1.length hn
  refine ⟨hc.1.trans List.length_eq_zero, hc.2.1, hc.2.2.trans ?_⟩
  have hz := List.length_eq_zero (l := (runLoop recipients submit).2.1)
  tauto

/-- Witness for `multisend_terminal_status`: a single-recipient batch whose
only submission fails is classified `failed`. -/
theorem multisend_terminal_status_witness :
    classify ([⟨addrA, "1"⟩] : List Recipient).length
      (runLoop [⟨addrA, "1"⟩] (fun _ => .failure)).2.1.length = .failed :=
  (multisend_terminal_status [⟨addrA, "1"⟩] (fun _ => .failure)
      (by decide)).2.1.mpr (by decide)

/-- C3. If any start precondition is violated — empty recipient list,
ERC-20 token type without a token address, no wallet provider, no
authorized account, or a chain other than Monad Testnet — the run aborts
with a precondition error and its effect trace is empty: no record is
created and no transfer is attempted. (The run is taken up to the user
confirming the summary dialog; declining it is a separate, unconditional
cancellation that also creates nothing.) -/
theorem multisend_precondition_abort (env : Env) (recipients : List Recipient)
    (tokenType : TokenType) (tokenAddress : String)
    (hconfirm : env.confirmDialog = true)
    (hviol : recipients = [] ∨ (tokenType = .erc20 ∧ tokenAddress = "") ∨
      env.ethereum = false ∨ env.accounts = [] ∨ env.chainId ≠ "0x279f") :
    (∃ e, (handleSendToMultiple env recipients tokenType tokenAddress).result = .error e ∧
      isPrecondError e = true) ∧
    (handleSendToMultiple env recipients tokenType tokenAddress).events = [] := by
  unfold handleSendToMultiple
  by_cases h1 : recipients.length = 0
  · exact ⟨⟨.noRecipients, by simp [h1], rfl⟩, by simp [h1]⟩
  · by_cases h2 : tokenType = .erc20 ∧ tokenAddress = ""
    · exact ⟨⟨.tokenNotSelected, by simp [h1, h2], rfl⟩, by simp [h1, h2]⟩
    · by_cases h3 : env.ethereum
      · by_cases h4 : env.accounts = []
        · exact ⟨⟨.walletNotConnectedPre, by simp [h1, h2, h3, h4], rfl⟩,
            by simp [h1, h2, h3, h4]⟩
        · have h5 : env.chainId ≠ "0x279f" := by
            rcases hviol with h | h | h | h | h
            · exact absurd (by simp [h]) h1
            · exact absurd h h2
            · exact absurd h3 (by simp [h])
            · exact absurd h h4
            · exact h
          refine ⟨⟨.wrongNetwork, ?_, rfl⟩, ?_⟩ <;>
            simp [h1, h2, h3, h4, hconfirm, sendMutation, h5]
      · exact ⟨⟨.walletNotFound, by simp [h1, h2, h3], rfl⟩, by simp [h1, h2, h3]⟩

/-- Witness for `multisend_precondition_abort`: an empty recipient list in
the healthy world. -/
theorem multisend_precondition_abort_witness :
    (∃ e, (handleSendToMultiple envOk [] .native "").result = .error e ∧
      isPrecondError e = true) ∧
    (handleSendToMultiple envOk [] .native "").events = [] :=
  multisend_precondition_abort envOk [] .native "" rfl (Or.inl rfl)

/-- C4 (amended). If the final record update throws after the loop
completed, the orchestrator issues one best-effort update marking the
record `failed` with the transaction hashes accumulated so far — but with
the FULL list of recipient addresses as `failedAddresses`, not the failures
accumulated so far — and then propagates the error to the caller. -/
theorem multisend_catch_marks_failed (env : Env) (recipients : List Recipient)
    (he : env.ethereum = true) (ha : env.accounts ≠ []) (hc : env.chainId = "0x279f")
    (hcr : env.createOk = true) (hup : env.updateOk = false) :
    (sendMutation env recipients).result = .error .updateFailed ∧
    (sendMutation env recipients).events =
      Event.recordCreated :: (runLoop recipients env.submit).2.2 ++
        [Event.recordUpdated .failed (runLoop recipients env.submit).1
          (recipients.map Recipient.address)] := by
  unfold sendMutation
  simp [he, ha, hc, hcr, hup]

/-- Witness for `multisend_catch_marks_failed`: one recipient, its
submission succeeding, the final update throwing. -/
theorem multisend_catch_marks_failed_witness :
    (sendMutation envCatch [⟨addrA, "1"⟩]).result = .error .updateFailed ∧
    (sendMutation envCatch [⟨addrA, "1"⟩]).events =
      Event.recordCreated :: (runLoop [⟨addrA, "1"⟩] envCatch.submit).2.2 ++
        [Event.recordUpdated .failed (runLoop [⟨addrA, "1"⟩] envCatch.submit).1
          (([⟨addrA, "1"⟩] : List Recipient).map Recipient.address)] :=
  multisend_catch_marks_failed envCatch [⟨addrA, "1"⟩] rfl (by decide) rfl rfl rfl

/-- C4 (counterexample). A batch of one recipient whose submission
SUCCEEDS, after which the final update throws: the loop accumulated no
failed address at all, yet the best-effort catch update writes the full
recipient list (`[addrA]`) as `failedAddresses` — not the accumulated `[]`
the claim describes. -/
theorem multisend_catch_accumulated_cex :
    (sendMutation envCatch [⟨addrA, "1"⟩]).result = .error .updateFailed ∧
    (sendMutation envCatch [⟨addrA, "1"⟩]).events =
      [Event.recordCreated, Event.submitted 0 addrA,
        Event.recordUpdated .failed ["0x0"] [addrA]] ∧
    (runLoop [⟨addrA, "1"⟩] envCatch.submit).2.1 = [] :=
  ⟨rfl, rfl, rfl⟩

/-- The loop's effect trace, in closed form: one `submitted` event per
recipient in order, followed by a 2000 ms sleep exactly when `delayAfter`
says so. -/
theorem runLoopAux_events (submit : Nat → SubmitOutcome) (n : Nat)
    (l : List Recipient) : ∀ i : Nat,
    (runLoopAux submit n l i).2.2 =
      (l.enumFrom i).flatMap (fun p =>
        Event.submitted p.1 p.2.address ::
          (if delayAfter submit n p.1 then [Event.delayed 2000] else [])) := by
  induction l with
  | nil => intro i; simp [runLoopAux]
  | cons r rest ih =>
    intro i
    cases h : submit i with
    | success hash =>
      simp [runLoopAux, h, List.enumFrom, ih (i + 1), delayAfter]
    | failure =>
      simp [runLoopAux, h, List.enumFrom, ih (i + 1), delayAfter]

/-- C5 (amended). The fixed 2000 ms inter-transaction delay is taken after
a submission exactly when that submission SUCCEEDED and was not the last
one; after a failed submission the next one is issued with no delay. The
trace is precisely the submissions in list order, each followed by the
delay iff `delayAfter` holds of its index. -/
theorem multisend_delay_after_success_only (recipients : List Recipient)
    (submit : Nat → SubmitOutcome) :
    (runLoop recipients submit).2.2 =
      (recipients.enumFrom 0).flatMap (fun p =>
        Event.submitted p.1 p.2.address ::
          (if delayAfter submit recipients.length p.1 then [Event.delayed 2000] else [])) ∧
    ∀ i : Nat, delayAfter submit recipients.length i = true ↔
      ((∃ h, submit i = .success h) ∧ i < recipients.length - 1) := by
  constructor
  · exact runLoopAux_events submit recipients.length recipients 0
  · intro i
    cases h : submit i with
    | success hash => simp [delayAfter, h]
    | failure => simp [delayAfter, h]

/-- C5 (counterexample). A two-recipient batch whose first submission fails
and whose second succeeds: the trace contains the two submissions
back-to-back with NO delay event between them, refuting "waits 2 time units
between every two successive submissions regardless of whether the
preceding submission succeeded or failed". -/
theorem multisend_delay_cex :
    (runLoop [⟨addrA, "1"⟩, ⟨addrB, "2"⟩] envMixed.submit).2.2 =
      [Event.submitted 0 addrA, Event.submitted 1 addrB] :=
  rfl

/-- C6 (amended). `addRecipient` succeeds precisely when both fields are
non-empty, the address starts with `"0x"` and has exactly 42 characters
(hex digits are NOT verified), the amount parses to a number `> 0`, and no
case-insensitive duplicate is present; on success it appends the new row at
the end, preserving the earlier entries and their order. -/
theorem addRecipient_ok_iff (recipients : List Recipient) (a m : String)
    (l : List Recipient) :
    addRecipient recipients a m = .ok l ↔
      (a ≠ "" ∧ m ≠ "" ∧ (startsWith0x a.data = true ∧ a.length = 42) ∧
        (∃ d, jsParseFloat m = some d ∧ d.nonpos = false) ∧
        recipients.any (fun r => lowerChars r.address.data = lowerChars a.data) = false ∧
        l = recipients ++ [⟨a, m⟩]) := by
  by_cases h1 : a = "" ∨ m = ""
  · have heq : addRecipient recipients a m = .error .missingInfo := by
      simp only [addRecipient, if_pos h1]
    rw [heq]
    simp only [reduceCtorEq, false_iff]
    rintro ⟨ha, hm, -⟩
    rcases h1 with h | h
    · exact ha h
    · exact hm h
  · by_cases h2 : startsWith0x a.data = true ∧ a.length = 42
    · cases hpf : jsParseFloat m with
      | none =>
        have heq : addRecipient recipients a m = .error .invalidAmount := by
          simp only [addRecipient, hpf]
          rw [if_neg h1, if_neg (not_not_intro h2)]
        rw [heq]
        simp only [reduceCtorEq, false_iff]
        rintro ⟨-, -, -, ⟨d, hd, -⟩, -⟩
        exact hd
      | some d =>
        by_cases hnp : d.nonpos = true
        · have heq : addRecipient recipients a m = .error .invalidAmount := by
            simp only [addRecipient, hpf]
            rw [if_neg h1, if_neg (not_not_intro h2), if_pos hnp]
          rw [heq]
          simp only [reduceCtorEq, false_iff]
          rintro ⟨-, -, -, ⟨d', hd', hd'np⟩, -⟩
          obtain rfl : d = d' := Option.some.inj hd'
          rw [hnp] at hd'np
          exact Bool.noConfusion hd'np
        · by_cases hdup :
              (recipients.any fun r => lowerChars r.address.data = lowerChars a.data) = true
          · have heq : addRecipient recipients a m = .error .duplicateAddress := by
              simp only [addRecipient, hpf]
              rw [if_neg h1, if_neg (not_not_intro h2), if_neg hnp, if_pos hdup]
            rw [heq]
            simp only [reduceCtorEq, false_iff]
            rintro ⟨-, -, -, -, hfalse, -⟩
            rw [hdup] at hfalse
            exact Bool.noConfusion hfalse
          · have heq : addRecipient recipients a m = .ok (recipients ++ [⟨a, m⟩]) := by
              simp only [addRecipient, hpf]
              rw [if_neg h1, if_neg (not_not_intro h2), if_neg hnp, if_neg hdup]
            have hnp' : d.nonpos = false := by
              cases hh : d.nonpos
              · rfl
              · exact absurd hh hnp
            have hdup' :
                (recipients.any fun r => lowerChars r.address.data = lowerChars a.data) =
                  false := by
              cases hh : recipients.any fun r => lowerChars r.address.data = lowerChars a.data
              · rfl
              · exact absurd hh hdup
            rw [heq]
            constructor
            · intro h
              have hl : recipients ++ [⟨a, m⟩] = l := Except.ok.inj h
              exact ⟨(not_or.mp h1).1, (not_or.mp h1).2, h2, ⟨d, rfl, hnp'⟩, hdup', hl.symm⟩
            · rintro ⟨-, -, -, -, -, rfl⟩
              rfl
    · have heq : addRecipient recipients a m = .error .invalidAddress := by
        simp only [addRecipient]
        rw [if_neg h1, if_pos h2]
      rw [heq]
      simp only [reduceCtorEq, false_iff]
      rintro ⟨-, -, hfmt, -⟩
      exact h2 hfmt

/-- C6 (counterexample). A 42-character `0x`-prefixed address made of `z`s
is NOT a hexadecimal string, yet `addRecipient` accepts it: the source
checks only the `0x` head and the length. -/
theorem addRecipient_nonhex_cex :
    specHexAddress zAddr = false ∧
    addRecipient [] zAddr "1" = .ok [⟨zAddr, "1"⟩] :=
  ⟨rfl, rfl⟩

/-- C7 (amended). Bulk import appends exactly the rows whose line passes
the code's lenient per-line check — address starts with `"0x"` and has 42
characters, amount merely parses to a number (its sign is NOT checked, and
duplicates are NOT checked) — silently discarding every other line; on the
spec's three-line example this accepts 2 rows (the `-3` row included), not
1. -/
theorem importFromText_lenient (recipients : List Recipient) (text : String) :
    importFromText recipients text = recipients ++ importedRows text ∧
    ∀ r ∈ importedRows text,
      startsWith0x r.address.data = true ∧ r.address.length = 42 ∧
      (jsParseFloat r.amount).isSome = true := by
  constructor
  · by_cases h : (importedRows text).length > 0
    · simp [importFromText, h]
    · have hz : importedRows text = [] := List.eq_nil_of_length_eq_zero (by omega)
      simp [importFromText, h, hz]
  · intro r hr
    unfold importedRows at hr
    obtain ⟨line, -, hacc⟩ := List.mem_filterMap.mp hr
    unfold csvAccept at hacc
    rcases hsp : (splitChar ',' line).map trimChars with - | ⟨address, rest⟩
    · simp only [hsp] at hacc
      exact Option.noConfusion hacc
    · rcases rest with - | ⟨amount, rest'⟩
      · simp only [hsp] at hacc
        exact Option.noConfusion hacc
      · simp only [hsp] at hacc
        by_cases hcond : address ≠ [] ∧ amount ≠ [] ∧ startsWith0x address = true ∧
            address.length = 42 ∧ (jsParseFloatCore amount).isSome = true
        · rw [if_pos hcond] at hacc
          obtain rfl := Option.some.inj hacc
          exact ⟨hcond.2.2.1, hcond.2.2.2.1, hcond.2.2.2.2⟩
        · rw [if_neg hcond] at hacc
          exact Option.noConfusion hacc

/-- Witness for `importFromText_lenient`, at the spec's example text:
importing is exactly an append, and the row `(0x2222…, "-3")` it accepts
passes the code's lenient checks. -/
theorem importFromText_lenient_witness :
    importFromText [] exampleCSV = [] ++ importedRows exampleCSV ∧
    (startsWith0x ("0x2222222222222222222222222222222222222222" : String).data = true ∧
      ("0x2222222222222222222222222222222222222222" : String).length = 42 ∧
      (jsParseFloat "-3").isSome = true) :=
  ⟨(importFromText_lenient [] exampleCSV).1,
   (importFromText_lenient [] exampleCSV).2
     ⟨"0x2222222222222222222222222222222222222222", "-3"⟩ (by decide)⟩

/-- C7 (counterexample). On the spec's example — one valid row, one
malformed address, one row with amount `-3` — the import adds exactly TWO
recipients (the negative-amount row is accepted because only
`!isNaN(parseFloat(amount))` is checked), not one. -/
theorem importFromText_example_cex :
    importFromText [] exampleCSV =
      [⟨"0x1111111111111111111111111111111111111111", "1.5"⟩,
       ⟨"0x2222222222222222222222222222222222222222", "-3"⟩] ∧
    (importedRows exampleCSV).length = 2 :=
  ⟨rfl, rfl⟩

/-- C8. Adding an address that is already present up to letter case is
rejected with the duplicate-address error, and the recipient list is left
unchanged (for a new entry that passes the field, format and amount checks,
which run first). -/
theorem addRecipient_duplicate_rejected (recipients : List Recipient) (a m : String)
    (ha : a ≠ "") (hm : m ≠ "")
    (hpre : startsWith0x a.data = true) (hlen : a.length = 42)
    (hamt : ∃ d, jsParseFloat m = some d ∧ d.nonpos = false)
    (hdup : ∃ r ∈ recipients, lowerChars r.address.data = lowerChars a.data) :
    addRecipient recipients a m = .error .duplicateAddress ∧
    addRecipientState recipients a m = recipients := by
  obtain ⟨d, hd, hdn⟩ := hamt
  have hany : recipients.any (fun r => lowerChars r.address.data = lowerChars a.data) = true := by
    rw [List.any_eq_true]
    obtain ⟨r, hr, he⟩ := hdup
    exact ⟨r, hr, by simp [he]⟩
  have herr : addRecipient recipients a m = .error .duplicateAddress := by
    unfold addRecipient
    rw [if_neg (by tauto), if_neg (by simp [hpre, hlen]), hd]
    simp [hdn, hany]
  exact ⟨herr, by unfold addRecipientState; rw [herr]⟩

/-- Witness for `addRecipient_duplicate_rejected`: `0xABCDEF…` is in the
list and `0xabcdef…` (same address, different case) is added. -/
theorem addRecipient_duplicate_rejected_witness :
    addRecipient [⟨"0xABCDEF1111111111111111111111111111111111", "1"⟩]
        "0xabcdef1111111111111111111111111111111111" "2" = .error .duplicateAddress ∧
    addRecipientState [⟨"0xABCDEF1111111111111111111111111111111111", "1"⟩]
        "0xabcdef1111111111111111111111111111111111" "2" =
      [⟨"0xABCDEF1111111111111111111111111111111111", "1"⟩] :=
  addRecipient_duplicate_rejected _ _ _ (by decide) (by decide) rfl rfl
    ⟨⟨2, 0⟩, rfl, rfl⟩
    ⟨⟨"0xABCDEF1111111111111111111111111111111111", "1"⟩, by decide, by decide⟩

/-- C9. For a call that passes the wallet, account, address and amount
checks, `sendERC20Token` queries the sender's token balance BEFORE the
transfer, and when that balance is strictly below the requested amount in
wei it fails — with the insufficient-token-balance message, rewrapped by
the catch into `"Token transfer failed: Insufficient token balance"`
because the catch's `includes("insufficient")` probe is case-sensitive —
without ever asking the wallet to sign and broadcast: the trace is exactly
the one balance query, with no `signSend` event. -/
theorem sendERC20_balance_preflight (env : Web3Env)
    (tokenAddress toAddr amount : String) (d : Dec)
    (he : env.ethereum = true) (ha : env.accounts ≠ [])
    (hta : env.isAddress tokenAddress = true) (hto : env.isAddress toAddr = true)
    (hpf : jsParseFloat amount = some d) (hpos : d.nonpos = false)
    (hbal : env.tokenBalanceWei < toWeiInt d) :
    sendERC20Token env tokenAddress toAddr amount =
      ([W3Event.balanceQuery (env.accounts.headD "")],
        .error "Token transfer failed: Insufficient token balance") := by
  have hrw : rewrapERC20 ⟨none, "Insufficient token balance"⟩ =
      "Token transfer failed: Insufficient token balance" := rfl
  simp only [sendERC20Token, he, ha, hta, hto, hpf, hpos]
  rw [if_neg (by simp), if_neg (by simp [ha]), if_neg (by simp), if_neg (by simp),
    if_neg (by simp), if_pos hbal, hrw]

/-- Witness for `sendERC20_balance_preflight`: a healthy submitter world
whose token balance is zero and a transfer of 1.5 tokens. -/
theorem sendERC20_balance_preflight_witness :
    sendERC20Token w3envOk addrA addrB "1.5" =
      ([W3Event.balanceQuery (w3envOk.accounts.headD "")],
        .error "Token transfer failed: Insufficient token balance") :=
  sendERC20_balance_preflight w3envOk addrA addrB "1.5" ⟨15, 1⟩
    rfl (by decide) rfl rfl rfl rfl (by decide)

/-- C10. When a wallet provider is present and an account is authorized,
`sendTransaction` and `sendERC20Token` throw their invalid-address /
invalid-amount errors for a malformed recipient (or token-contract) address
or a non-positive / unparseable amount BEFORE any external call: the trace
is empty — no gas estimation, no balance query, no signing request, no
broadcast. -/
theorem send_validation_before_broadcast (env : Web3Env)
    (toAddr value tokenAddress amount : String)
    (he : env.ethereum = true) (ha : env.accounts ≠ []) :
    ((env.isAddress toAddr = false ∨ jsParseFloat value = none ∨
        (∃ d, jsParseFloat value = some d ∧ d.nonpos = true)) →
      (sendTransaction env toAddr value).1 = [] ∧
        ((sendTransaction env toAddr value).2 =
            .error ("Invalid recipient address: " ++ toAddr) ∨
         (sendTransaction env toAddr value).2 = .error ("Invalid amount: " ++ value))) ∧
    ((env.isAddress tokenAddress = false ∨ env.isAddress toAddr = false ∨
        jsParseFloat amount = none ∨
        (∃ d, jsParseFloat amount = some d ∧ d.nonpos = true)) →
      (sendERC20Token env tokenAddress toAddr amount).1 = [] ∧
        ((sendERC20Token env tokenAddress toAddr amount).2 =
            .error ("Invalid token address: " ++ tokenAddress) ∨
         (sendERC20Token env tokenAddress toAddr amount).2 =
            .error ("Invalid recipient address: " ++ toAddr) ∨
         (sendERC20Token env tokenAddress toAddr amount).2 =
            .error ("Invalid amount: " ++ amount))) := by
  constructor
  · intro hviol
    by_cases hto : env.isAddress toAddr = true
    · have hval : jsParseFloat value = none ∨
          (∃ d, jsParseFloat value = some d ∧ d.nonpos = true) := by
        rcases hviol with h | h | h
        · rw [hto] at h
          exact Bool.noConfusion h
        · exact Or.inl h
        · exact Or.inr h
      rcases hval with h | ⟨d, hd, hdn⟩
      · constructor <;> simp [sendTransaction, he, ha, hto, h]
      · constructor
        · simp [sendTransaction, he, ha, hto, hd, hdn]
        · right
          simp [sendTransaction, he, ha, hto, hd, hdn]
    · have hto' : env.isAddress toAddr = false := by
        cases hh : env.isAddress toAddr
        · rfl
        · exact absurd hh hto
      constructor
      · simp [sendTransaction, he, ha, hto']
      · left
        simp [sendTransaction, he, ha, hto']
  · intro hviol
    by_cases hta : env.isAddress tokenAddress = true
    · by_cases hto : env.isAddress toAddr = true
      · have hval : jsParseFloat amount = none ∨
            (∃ d, jsParseFloat amount = some d ∧ d.nonpos = true) := by
          rcases hviol with h | h | h | h
          · rw [hta] at h
            exact Bool.noConfusion h
          · rw [hto] at h
            exact Bool.noConfusion h
          · exact Or.inl h
          · exact Or.inr h
        rcases hval with h | ⟨d, hd, hdn⟩
        · constructor
          · simp [sendERC20Token, he, ha, hta, hto, h]
          · right; right
            simp [sendERC20Token, he, ha, hta, hto, h]
        · constructor
          · simp [sendERC20Token, he, ha, hta, hto, hd, hdn]
          · right; right
            simp [sendERC20Token, he, ha, hta, hto, hd, hdn]
      · have hto' : env.isAddress toAddr = false := by
          cases hh : env.isAddress toAddr
          · rfl
          · exact absurd hh hto
        constructor
        · simp [sendERC20Token, he, ha, hta, hto']
        · right; left
          simp [sendERC20Token, he, ha, hta, hto']
    · have hta' : env.isAddress tokenAddress = false := by
        cases hh : env.isAddress tokenAddress
        · rfl
        · exact absurd hh hta
      constructor
      · simp [sendERC20Token, he, ha, hta']
      · left
        simp [sendERC20Token, he, ha, hta']

/-- Witness for `send_validation_before_broadcast`: a world that rejects
every address — the native send ends with no events and the
invalid-recipient-address error. -/
theorem send_validation_before_broadcast_witness :
    (sendTransaction w3envBadAddr addrA "1").1 = [] ∧
      ((sendTransaction w3envBadAddr addrA "1").2 =
          .error ("Invalid recipient address: " ++ addrA) ∨
       (sendTransaction w3envBadAddr addrA "1").2 =
          .error ("Invalid amount: " ++ "1")) :=
  (send_validation_before_broadcast w3envBadAddr addrA "1" addrA "1"
      rfl (by decide)).1 (Or.inl rfl)

end Deployer
